import Mathlib

/-!
Conversation synchronisation engine of `static/app.js`.

A shallow embedding of the thread addressing, conversation cache and
synchronisation code of `static/app.js`, followed by the properties proved of it.

Modelling conventions.

* A JavaScript string is its sequence of UTF-16 code units (`JSString`), which is
  what `Array.prototype.sort`, `String.prototype.split` and `trim` operate on.
* The numbers of the data model (`timestamp`, `last_message_time`, `Date.now()`)
  are integers (`Int`); `Date.now()` is an explicit argument `now`.
* The module-level variables (`currentIdentity`, `currentThreadId`,
  `recipientIdentity`, `conversations`, `lastMessageCount`) and the
  `zerotrace_conversations` entry of `localStorage` are the fields of `State`.
* Every observable call (network request, `saveConversations`, renderer, toast,
  console) is appended to `State.log`, oldest first.
* A function that suspends on a network request is split at the suspension
  point: the synchronous part, and one function per continuation (`_then` for the
  fulfilled promise, `_catch` for the rejected one). The continuations read the
  module state of the moment they run, as the closures of the source do.
* Each function is studied with its own continuations: `refreshConversationsFromServer`
  takes the outcomes of all its requests as one argument, so no other handler runs
  between its `await`s. A single continuation (`loadMessages_then`, `sendMessage_then`)
  takes the state of the moment it runs, whatever happened in between.
* Responses are well typed: a message list is an array of messages with string `text`
  and integer `timestamp`, a thread list an array of descriptors, the answer of
  `POST /send` an object.
* DOM bookkeeping that no other code reads back (button labels, CSS classes,
  input clearing) is not modelled.
-/

namespace Psy

/-! ## Strings -/

/-- A JavaScript string: the list of its UTF-16 code units. -/
abbrev JSString := List Nat

/-- Code units of a text literal (one or two units per character). -/
def utf16 (s : String) : JSString :=
  s.toList.flatMap fun c =>
    if c.toNat < 65536 then [c.toNat]
    else [55296 + (c.toNat - 65536) / 1024, 56320 + (c.toNat - 65536) % 1024]

/-- The separator of a thread id, the code unit of `:`. -/
def colon : Nat := 58

/-- String comparison `x < y` of JavaScript: a proper prefix is smaller, otherwise the
first differing code unit decides. -/
def isLessThan : JSString → JSString → Bool
  | [], [] => false
  | [], _ :: _ => true
  | _ :: _, [] => false
  | a :: x, b :: y => if a < b then true else if b < a then false else isLessThan x y

/-- The default comparator of `Array.prototype.sort` on two strings. -/
def sortCompare (x y : JSString) : Int :=
  if isLessThan x y then -1 else if isLessThan y x then 1 else 0

/-- Model of `[x, y].sort()`: the sort is stable, so the two elements are exchanged exactly
when the comparator puts `x` after `y`. -/
def sortPair (x y : JSString) : JSString × JSString :=
  if sortCompare x y > 0 then (y, x) else (x, y)

/-- The thread id of `connectToUser` (lines 330-331) and of `sendMessage` (lines 410-411):
`ids = [identityHash, recipientIdentity].sort()` joined as `ids[0]:ids[1]`. -/
def threadIdOf (identityHash recipientIdentity : JSString) : JSString :=
  let ids := sortPair identityHash recipientIdentity
  ids.1 ++ colon :: ids.2

/-- Model of `s.split(":")` for a one-unit separator: the pieces between the separators, in
order; a string without separator is its own single piece. -/
def split (sep : Nat) : JSString → List JSString
  | [] => [[]]
  | c :: s =>
    if c = sep then [] :: split sep s
    else
      match split sep s with
      | [] => [[c]]
      | p :: ps => (c :: p) :: ps

/-- White space and line terminators removed by `String.prototype.trim`. -/
def isWhiteSpace (c : Nat) : Bool :=
  c = 9 || c = 10 || c = 11 || c = 12 || c = 13 || c = 32 || c = 160 || c = 5760 ||
  (8192 ≤ c && c ≤ 8202) || c = 8232 || c = 8233 || c = 8239 || c = 8287 || c = 12288 ||
  c = 65279

/-- Model of `s.trim()`. -/
def trim (s : JSString) : JSString :=
  ((s.dropWhile isWhiteSpace).reverse.dropWhile isWhiteSpace).reverse

/-! ## Data model -/

/-- The record of `currentIdentity`. -/
structure Identity where
  identityHash : JSString
  publicKey : JSString
  deriving DecidableEq, Repr

/-- A value of the `conversations` map (line 6). -/
structure Conversation where
  recipientHash : JSString
  lastMessage : JSString
  timestamp : Int
  deriving DecidableEq, Repr

/-- An element of the array answered by `GET /read/<threadId>`. -/
structure Message where
  sender : JSString
  text : JSString
  timestamp : Int
  proof_present : Bool
  deriving DecidableEq, Repr

/-- An element of the array answered by `GET /threads/<identityHash>`. -/
structure Thread where
  thread_id : JSString
  other_identity_hash : JSString
  last_message_time : Int
  deriving DecidableEq, Repr

/-- The body of `POST /send` built by `sendMessage`; `sender_signature` is the constant
`sig_stub`. -/
structure SendPayload where
  thread_id : JSString
  recipient_id : JSString
  plaintext : JSString
  sender_identity_hash : JSString
  deriving DecidableEq, Repr

/-- The texts passed to `showToast`. -/
inductive Toast where
  | enterIdentityHash
  | cannotConnectToYourself
  | connected
  | connectFirst
  | sent
  | failedToSend
  | conversationsRefreshed
  | refreshFailed
  | createIdentityFirst
  deriving DecidableEq, Repr

/-- A JavaScript `Map` with string keys, as its entries in insertion order. The operations
below read and write the first entry of a key, so a list built by them from a list without
repeated keys has no repeated keys. -/
abbrev ConvMap := List (JSString × Conversation)

/-- An observable call made by the code. -/
inductive Effect where
  | fetchThreads (identityHash : JSString)
  | fetchRead (threadId : JSString)
  | fetchSend (payload : SendPayload)
  | saveConversations (data : ConvMap)
  | renderConversations (data : ConvMap)
  | displayMessages (messages : List Message)
  | displayProofStatus
  | showToast (message : Toast)
  | consoleLog
  | consoleError
  | startPolling
  | scheduleLoadMessages
  | typeError
  deriving DecidableEq, Repr

/-- The module-level variables of `app.js` (lines 3-8), the persisted conversation data and
the trace of observable calls. -/
structure State where
  currentIdentity : Option Identity
  currentThreadId : Option JSString
  recipientIdentity : Option JSString
  conversations : ConvMap
  lastMessageCount : Nat
  storedConversations : Option ConvMap
  log : List Effect
  deriving DecidableEq, Repr

/-! ## The conversation map -/

/-- Model of `conversations.get(k)`. -/
def mapGet (m : ConvMap) (k : JSString) : Option Conversation :=
  match m with
  | [] => none
  | (k1, v) :: rest => if k1 = k then some v else mapGet rest k

/-- Model of `conversations.has(k)`. -/
def mapHas (m : ConvMap) (k : JSString) : Bool :=
  (mapGet m k).isSome

/-- Model of `conversations.set(k, v)`: an existing key keeps its place, a new key goes
last. -/
def mapSet (m : ConvMap) (k : JSString) (v : Conversation) : ConvMap :=
  match m with
  | [] => [(k, v)]
  | (k1, v1) :: rest => if k1 = k then (k1, v) :: rest else (k1, v1) :: mapSet rest k v

/-- Assignment to fields of the object `conversations.get(k)`. -/
def mapUpdate (m : ConvMap) (k : JSString) (f : Conversation → Conversation) : ConvMap :=
  match m with
  | [] => []
  | (k1, v1) :: rest => if k1 = k then (k1, f v1) :: rest else (k1, v1) :: mapUpdate rest k f

/-- A string in a boolean position: `null` and the empty string are falsy. -/
def truthy (s : Option JSString) : Bool :=
  match s with
  | none => false
  | some t => !t.isEmpty

/-- Append one observable call to the trace. -/
def emit (st : State) (e : Effect) : State :=
  { st with log := st.log ++ [e] }

/-- Model of `saveConversations` (lines 774-777): the entries of the map are written to
`localStorage`. -/
def saveConversations (st : State) : State :=
  emit { st with storedConversations := some st.conversations }
    (Effect.saveConversations st.conversations)

/-- Model of `renderConversations` (lines 779-823), which only writes the DOM. -/
def renderConversations (st : State) : State :=
  emit st (Effect.renderConversations st.conversations)

/-- Model of `displayMessages` (lines 497-545), which only writes the DOM. Rendering a
non-empty list reads `currentIdentity.identityHash` (line 515) and throws without an identity;
the second component tells whether the function returned normally. -/
def displayMessages (st : State) (messages : List Message) : State × Bool :=
  let st1 := emit st (Effect.displayMessages messages)
  if !messages.isEmpty && st.currentIdentity.isNone then (emit st1 Effect.typeError, false)
  else (st1, true)

/-! ## loadMessages (lines 457-495) -/

/-- Lines 460-464: the current thread id is split at `:`; when that gives exactly two
pieces they are sorted and joined again, otherwise the id is kept. -/
def normalizeThreadId (threadId : JSString) : JSString :=
  match split colon threadId with
  | [a, b] =>
    let sortedIds := sortPair a b
    sortedIds.1 ++ colon :: sortedIds.2
  | _ => threadId

/-- Synchronous part of `loadMessages` (lines 458-466): nothing without a current thread,
otherwise the thread id is normalised and `GET /read/<currentThreadId>` is issued. -/
def loadMessages (st : State) : State :=
  match st.currentThreadId with
  | none => st
  | some threadId =>
    if threadId.isEmpty then st
    else
      let threadId1 := normalizeThreadId threadId
      emit { st with currentThreadId := some threadId1 } (Effect.fetchRead threadId1)

/-- Lines 477-484: the preview of the current thread is overwritten from the last message
of a non-empty list, when the current thread is in the map. -/
def updatePreview (st : State) (messages : List Message) : State :=
  match messages.getLast?, st.currentThreadId with
  | some lastMsg, some threadId =>
    if mapHas st.conversations threadId then
      let assign (conv : Conversation) : Conversation :=
        { conv with lastMessage := lastMsg.text, timestamp := lastMsg.timestamp * 1000 }
      renderConversations (saveConversations
        { st with conversations := mapUpdate st.conversations threadId assign })
    else st
  | _, _ => st

/-- Continuation of `loadMessages` for a rejected request, or for a callback that threw
(lines 490-494). -/
def loadMessages_catch (st : State) (silent : Bool) : State :=
  if silent then st else emit st Effect.consoleError

/-- Continuation of `loadMessages` for a fulfilled request (lines 468-489); `messages` is
the parsed response and `silent` the argument of the call that issued the request. When
`displayMessages` throws, the `catch` of the promise chain runs. -/
def loadMessages_then (st : State) (silent : Bool) (messages : List Message) : State :=
  if messages.length ≠ st.lastMessageCount then
    let st1 := if silent then st else emit st Effect.consoleLog
    let st2 := { st1 with lastMessageCount := messages.length }
    let shown := displayMessages (updatePreview st2 messages) messages
    if shown.2 then shown.1 else loadMessages_catch shown.1 silent
  else st

/-! ## openChat and connectToUser (lines 313-394) -/

/-- Model of `openChat(threadId, recipientHash)`; `now` is the value of `Date.now()`. -/
def openChat (st : State) (threadId recipientHash : JSString) (now : Int) : State :=
  let st1 := { st with currentThreadId := some threadId, recipientIdentity := some recipientHash }
  let st2 :=
    if mapHas st1.conversations threadId then st1
    else
      let conv : Conversation :=
        { recipientHash := recipientHash, lastMessage := [], timestamp := now }
      saveConversations { st1 with conversations := mapSet st1.conversations threadId conv }
  loadMessages (emit st2 Effect.startPolling)

/-- Model of `connectToUser`; `value` is the content of the recipient input field and `now`
the value of `Date.now()`. Without an identity the read of `currentIdentity.identityHash`
throws and the handler ends there. -/
def connectToUser (st : State) (value : JSString) (now : Int) : State :=
  let input := trim value
  if input.isEmpty then emit st (Effect.showToast Toast.enterIdentityHash)
  else
    match st.currentIdentity with
    | none => emit st Effect.typeError
    | some identity =>
      if input = identity.identityHash then
        emit st (Effect.showToast Toast.cannotConnectToYourself)
      else
        let threadId := threadIdOf identity.identityHash input
        let st1 := { st with recipientIdentity := some input, currentThreadId := some threadId }
        let st2 :=
          if mapHas st1.conversations threadId then st1
          else
            let conv : Conversation :=
              { recipientHash := input, lastMessage := [], timestamp := now }
            renderConversations (saveConversations
              { st1 with conversations := mapSet st1.conversations threadId conv })
        emit (openChat st2 threadId input now) (Effect.showToast Toast.connected)

/-! ## sendMessage (lines 396-455) -/

/-- The constants captured by the continuations of one `sendMessage` call. -/
structure PendingSend where
  threadId : JSString
  plaintext : JSString
  deriving DecidableEq, Repr

/-- Synchronous part of `sendMessage` (lines 397-425); `value` is the content of the message
input field. The second component is `none` when the function returned before the request,
and otherwise holds what the continuations close over. -/
def sendMessage (st : State) (value : JSString) : State × Option PendingSend :=
  let plaintext := trim value
  if plaintext.isEmpty then (st, none)
  else
    match st.currentIdentity, st.recipientIdentity with
    | some identity, some recipient =>
      if recipient.isEmpty then (emit st (Effect.showToast Toast.connectFirst), none)
      else
        let threadId := threadIdOf identity.identityHash recipient
        let payload : SendPayload :=
          { thread_id := threadId, recipient_id := recipient, plaintext := plaintext,
            sender_identity_hash := identity.identityHash }
        (emit st (Effect.fetchSend payload), some { threadId := threadId, plaintext := plaintext })
    | _, _ => (emit st (Effect.showToast Toast.connectFirst), none)

/-- Continuation of `sendMessage` for a fulfilled request (lines 427-448); `now` is the
value of `Date.now()`. -/
def sendMessage_then (st : State) (p : PendingSend) (now : Int) : State :=
  let st1 := emit (emit st (Effect.showToast Toast.sent)) Effect.displayProofStatus
  let st2 :=
    if mapHas st1.conversations p.threadId then
      let assign (conv : Conversation) : Conversation :=
        { conv with lastMessage := p.plaintext, timestamp := now }
      renderConversations (saveConversations
        { st1 with conversations := mapUpdate st1.conversations p.threadId assign })
    else st1
  emit st2 Effect.scheduleLoadMessages

/-- Continuation of `sendMessage` for a rejected request (lines 449-454). -/
def sendMessage_catch (st : State) : State :=
  emit (emit st Effect.consoleError) (Effect.showToast Toast.failedToSend)

/-! ## refreshConversationsFromServer (lines 693-747) -/

/-- Lines 712-731: the merge of one thread descriptor whose message list was fetched.
For the string `lastMsg.text` the expression `lastMsg.text || ""` is `lastMsg.text`. -/
def mergeThread (conversations : ConvMap) (thread : Thread) (messages : List Message) :
    ConvMap :=
  match messages.getLast? with
  | none => conversations
  | some lastMsg =>
    let lastMessageText := lastMsg.text
    match mapGet conversations thread.thread_id with
    | none =>
      let conv : Conversation :=
        { recipientHash := thread.other_identity_hash, lastMessage := lastMessageText,
          timestamp := thread.last_message_time * 1000 }
      mapSet conversations thread.thread_id conv
    | some conv =>
      if thread.last_message_time * 1000 > conv.timestamp then
        let assign (c : Conversation) : Conversation :=
          { c with lastMessage := lastMessageText, timestamp := thread.last_message_time * 1000 }
        mapUpdate conversations thread.thread_id assign
      else conversations

/-- One iteration of the loop at lines 703-735: the message list of the thread is
requested; `none` stands for a request that failed (the inner `catch`). -/
def refreshThread (st : State) (item : Thread × Option (List Message)) : State :=
  let st1 := emit st (Effect.fetchRead item.1.thread_id)
  match item.2 with
  | none => emit st1 Effect.consoleError
  | some messages =>
    { st1 with conversations := mergeThread st1.conversations item.1 messages }

/-- Model of `refreshConversationsFromServer`. `threads` is the outcome of the thread-list
request: `none` when it failed (the outer `catch`), otherwise the descriptors in order, each
with the outcome of its own message request. -/
def refreshConversationsFromServer (st : State)
    (threads : Option (List (Thread × Option (List Message)))) : State :=
  match st.currentIdentity with
  | none => st
  | some identity =>
    let st1 := emit st (Effect.fetchThreads identity.identityHash)
    match threads with
    | none => emit st1 Effect.consoleError
    | some items =>
      let st2 := renderConversations (saveConversations (items.foldl refreshThread st1))
      if truthy st2.currentThreadId then loadMessages st2 else st2

/-- Model of `refreshConversations` (lines 749-772), the handler of the refresh button.
`refreshConversationsFromServer` catches every failure itself, so the promise it returns is
always fulfilled and the `then` branch runs. -/
def refreshConversations (st : State)
    (threads : Option (List (Thread × Option (List Message)))) : State :=
  match st.currentIdentity with
  | none => emit st (Effect.showToast Toast.createIdentityFirst)
  | some _ =>
    emit (refreshConversationsFromServer st threads)
      (Effect.showToast Toast.conversationsRefreshed)

/-- One tick of the timer set by `startPolling` (lines 827-831): `loadMessages(true)` when
there is a current thread. -/
def pollTick (st : State) : State :=
  if truthy st.currentThreadId then loadMessages st else st

/-! ## Specification predicates and sample data -/

/-- The monotonic preview invariant between the map before and after a step: every entry
present before is still present, its timestamp did not decrease, and its `lastMessage`
differs only if the timestamp strictly increased. -/
def PreviewMonotone (before after : ConvMap) : Prop :=
  ∀ k c, mapGet before k = some c →
    ∃ c1, mapGet after k = some c1 ∧ c.timestamp ≤ c1.timestamp ∧
      (c1.lastMessage ≠ c.lastMessage → c.timestamp < c1.timestamp)

/-- The effect of one loop iteration of `refreshConversationsFromServer` on the map alone:
nothing for a failed message request, `mergeThread` otherwise. -/
def mergeItem (m : ConvMap) (item : Thread × Option (List Message)) : ConvMap :=
  match item.2 with
  | none => m
  | some messages => mergeThread m item.1 messages

/-- Sample identity with hash `aa11`. -/
def sampleIdentity : Identity :=
  { identityHash := utf16 "aa11", publicKey := utf16 "pk" }

/-- Sample state: identity `aa11`, no thread open, empty map. -/
def sampleState : State :=
  { currentIdentity := some sampleIdentity, currentThreadId := none, recipientIdentity := none,
    conversations := [], lastMessageCount := 0, storedConversations := none, log := [] }

/-- Sample conversation with `bb22`, last message `new` at 5000 ms. -/
def sampleConversation : Conversation :=
  { recipientHash := utf16 "bb22", lastMessage := utf16 "new", timestamp := 5000 }

/-- Sample state with the thread `aa11:bb22` open and cached, three messages known. -/
def sampleChatState : State :=
  { currentIdentity := some sampleIdentity, currentThreadId := some (utf16 "aa11:bb22"),
    recipientIdentity := some (utf16 "bb22"),
    conversations := [(utf16 "aa11:bb22", sampleConversation)], lastMessageCount := 3,
    storedConversations := some [(utf16 "aa11:bb22", sampleConversation)], log := [] }

/-- Sample state whose cached thread `aa11:bb22` has timestamp 1000. -/
def sampleStoreState : State :=
  { sampleChatState with
    conversations := [(utf16 "aa11:bb22", ⟨utf16 "bb22", utf16 "new", 1000⟩)] }

/-- Sample thread descriptor with the given thread id, other hash and time (seconds). -/
def sampleThread (threadId other : String) (time : Int) : Thread :=
  { thread_id := utf16 threadId, other_identity_hash := utf16 other, last_message_time := time }

/-- Sample message with the given text and timestamp (seconds). -/
def sampleMessage (text : String) (timestamp : Int) : Message :=
  { sender := utf16 "bb22", text := utf16 text, timestamp := timestamp, proof_present := true }

/-- Sample outcome of a sync: three threads, the message request of the second fails. -/
def sampleItems : List (Thread × Option (List Message)) :=
  [(sampleThread "aa11:bb22" "bb22" 1, some [sampleMessage "one" 1]),
   (sampleThread "aa11:cc33" "cc33" 2, none),
   (sampleThread "aa11:dd44" "dd44" 3, some [sampleMessage "three" 3])]

/-- Sample state with the thread `aa11:bb22` open and cached, before any message sync. -/
def sampleFreshChat : State :=
  { sampleChatState with lastMessageCount := 0 }

/-- Sample history of the thread `aa11:bb22`: three messages. -/
def sampleHistoryA : List Message :=
  [sampleMessage "a1" 1, sampleMessage "a2" 2, sampleMessage "a3" 3]

/-- Sample history of the thread `aa11:cc33`: three other messages. -/
def sampleHistoryB : List Message :=
  [sampleMessage "b1" 4, sampleMessage "b2" 5, sampleMessage "b3" 6]

/-- The sample chat after the history of `aa11:bb22` was synced. -/
def sampleSyncedA : State :=
  loadMessages_then sampleFreshChat false sampleHistoryA

/-- The state after the user then opened the thread `aa11:cc33` at clock value 9000. -/
def sampleOpenedB : State :=
  openChat sampleSyncedA (utf16 "aa11:cc33") (utf16 "cc33") 9000


/-! ## Lemmas: string order and thread ids -/

theorem isLessThan_asymm : ∀ x y : JSString, isLessThan x y = true → isLessThan y x = false
  | [], [], h => by simp [isLessThan] at h
  | [], _ :: _, _ => by simp [isLessThan]
  | _ :: _, [], h => by simp [isLessThan] at h
  | a :: x, b :: y, h => by
    rcases Nat.lt_trichotomy a b with hab | hab | hab
    · have h1 : ¬ b < a := by omega
      simp [isLessThan, h1, hab]
    · subst hab
      simp only [isLessThan, Nat.lt_irrefl, if_false] at h ⊢
      exact isLessThan_asymm x y h
    · have h1 : ¬ a < b := by omega
      simp [isLessThan, h1, hab] at h

theorem isLessThan_total : ∀ x y : JSString,
    isLessThan x y = false → isLessThan y x = false → x = y
  | [], [], _, _ => rfl
  | [], _ :: _, h, _ => by simp [isLessThan] at h
  | _ :: _, [], _, h => by simp [isLessThan] at h
  | a :: x, b :: y, h1, h2 => by
    rcases Nat.lt_trichotomy a b with hab | hab | hab
    · simp [isLessThan, hab] at h1
    · subst hab
      simp only [isLessThan, Nat.lt_irrefl, if_false] at h1 h2
      rw [isLessThan_total x y h1 h2]
    · simp [isLessThan, hab] at h2

theorem sortPair_eq (x y : JSString) :
    sortPair x y = if isLessThan y x then (y, x) else (x, y) := by
  unfold sortPair sortCompare
  cases h1 : isLessThan x y <;> cases h2 : isLessThan y x <;> simp
  rw [isLessThan_asymm x y h1] at h2
  cases h2

theorem threadIdOf_eq (a b : JSString) :
    threadIdOf a b = if isLessThan b a then b ++ colon :: a else a ++ colon :: b := by
  unfold threadIdOf
  rw [sortPair_eq]
  split <;> rfl

theorem threadIdOf_comm (a b : JSString) : threadIdOf a b = threadIdOf b a := by
  rw [threadIdOf_eq, threadIdOf_eq]
  cases h1 : isLessThan b a <;> cases h2 : isLessThan a b <;> simp
  · rw [isLessThan_total a b h2 h1]
  · rw [isLessThan_asymm b a h1] at h2
    cases h2

theorem split_ne_nil (sep : Nat) : ∀ s : JSString, split sep s ≠ []
  | [] => by simp [split]
  | c :: s => by
    unfold split
    split
    · simp
    · split <;> simp

theorem split_of_not_mem (sep : Nat) : ∀ s : JSString, sep ∉ s → split sep s = [s]
  | [], _ => rfl
  | c :: s, h => by
    have hc : ¬ c = sep := fun e => h (by simp [e])
    have hs : sep ∉ s := fun e => h (by simp [e])
    simp [split, hc, split_of_not_mem sep s hs]

theorem split_append (sep : Nat) (y : JSString) : ∀ x : JSString, sep ∉ x →
    split sep (x ++ sep :: y) = x :: split sep y
  | [], _ => by simp [split]
  | c :: x, h => by
    have hc : ¬ c = sep := fun e => h (by simp [e])
    have hx : sep ∉ x := fun e => h (by simp [e])
    simp [split, hc, split_append sep y x hx]

theorem split_length (sep : Nat) : ∀ s : JSString, (split sep s).length = s.count sep + 1
  | [] => by simp [split]
  | c :: s => by
    have ih := split_length sep s
    unfold split
    by_cases hc : c = sep
    · subst hc
      simp [ih]
    · simp only [hc, if_false]
      have hne := split_ne_nil sep s
      cases hsp : split sep s with
      | nil => exact absurd hsp hne
      | cons p ps =>
        rw [hsp] at ih
        simp [List.count_cons, hc] at ih ⊢
        omega

theorem normalizeThreadId_of_length {t : JSString} (h : (split colon t).length ≠ 2) :
    normalizeThreadId t = t := by
  unfold normalizeThreadId
  split
  · rename_i a b heq
    rw [heq] at h
    simp at h
  · rfl

theorem normalizeThreadId_join (lo hi : JSString) (h : isLessThan hi lo = false) :
    normalizeThreadId (lo ++ colon :: hi) = lo ++ colon :: hi := by
  by_cases hlo : colon ∈ lo
  · apply normalizeThreadId_of_length
    rw [split_length]
    have : 0 < lo.count colon := List.count_pos_iff.mpr hlo
    simp [List.count_append]
    omega
  · by_cases hhi : colon ∈ hi
    · apply normalizeThreadId_of_length
      rw [split_length]
      have : 0 < hi.count colon := List.count_pos_iff.mpr hhi
      simp [List.count_append]
      omega
    · unfold normalizeThreadId
      rw [split_append colon hi lo hlo, split_of_not_mem colon hi hhi]
      simp [sortPair_eq, h]

theorem normalizeThreadId_threadIdOf (a b : JSString) :
    normalizeThreadId (threadIdOf a b) = threadIdOf a b := by
  rw [threadIdOf_eq]
  cases h : isLessThan b a
  · simp only [Bool.false_eq_true, if_false]
    exact normalizeThreadId_join a b h
  · simp only [if_true]
    exact normalizeThreadId_join b a (isLessThan_asymm b a h)

@[simp]
theorem emit_currentThreadId (st : State) (e : Effect) :
    (emit st e).currentThreadId = st.currentThreadId := rfl
@[simp]
theorem emit_conversations (st : State) (e : Effect) :
    (emit st e).conversations = st.conversations := rfl
@[simp]
theorem emit_storedConversations (st : State) (e : Effect) :
    (emit st e).storedConversations = st.storedConversations := rfl
@[simp]
theorem emit_lastMessageCount (st : State) (e : Effect) :
    (emit st e).lastMessageCount = st.lastMessageCount := rfl
@[simp]
theorem emit_currentIdentity (st : State) (e : Effect) :
    (emit st e).currentIdentity = st.currentIdentity := rfl
@[simp]
theorem emit_recipientIdentity (st : State) (e : Effect) :
    (emit st e).recipientIdentity = st.recipientIdentity := rfl
@[simp]
theorem emit_log (st : State) (e : Effect) :
    (emit st e).log = st.log ++ [e] := rfl

theorem loadMessages_currentThreadId_threadIdOf (st : State) (a b : JSString)
    (h : st.currentThreadId = some (threadIdOf a b)) :
    (loadMessages st).currentThreadId = some (threadIdOf a b) := by
  have hne : (threadIdOf a b).isEmpty = false := by
    rw [threadIdOf_eq]; split <;> simp
  simp [loadMessages, h, hne, normalizeThreadId_threadIdOf]

theorem openChat_currentThreadId_threadIdOf (st : State) (a b r : JSString) (now : Int) :
    (openChat st (threadIdOf a b) r now).currentThreadId = some (threadIdOf a b) := by
  unfold openChat
  apply loadMessages_currentThreadId_threadIdOf
  simp only [emit_currentThreadId]
  split <;> rfl

theorem connectToUser_currentThreadId (st : State) (me : Identity) (value : JSString) (now : Int)
    (hid : st.currentIdentity = some me) (hne : trim value ≠ [])
    (hself : trim value ≠ me.identityHash) :
    (connectToUser st value now).currentThreadId
      = some (threadIdOf me.identityHash (trim value)) := by
  have hne1 : (trim value).isEmpty = false := by
    cases h : trim value with
    | nil => exact absurd h hne
    | cons _ _ => rfl
  unfold connectToUser
  simp only [hne1, hid, hself, if_false, Bool.false_eq_true, emit_currentThreadId]
  exact openChat_currentThreadId_threadIdOf _ _ _ _ _

theorem sendMessage_pending (st : State) (me : Identity) (recipient text : JSString)
    (hid : st.currentIdentity = some me) (hrec : st.recipientIdentity = some recipient)
    (hr : recipient ≠ []) (ht : trim text ≠ []) :
    sendMessage st text
      = (emit st (Effect.fetchSend
          { thread_id := threadIdOf me.identityHash recipient, recipient_id := recipient,
            plaintext := trim text, sender_identity_hash := me.identityHash }),
         some { threadId := threadIdOf me.identityHash recipient, plaintext := trim text }) := by
  have h1 : (trim text).isEmpty = false := by
    cases h : trim text with
    | nil => exact absurd h ht
    | cons _ _ => rfl
  have h2 : recipient.isEmpty = false := by
    cases recipient with
    | nil => exact absurd rfl hr
    | cons _ _ => rfl
  unfold sendMessage
  simp [h1, hid, hrec, h2]

/-! ## Thread addressing -/

/-- C1. Thread-id symmetry: the thread id derived by the sort-and-join of `connectToUser`
and `sendMessage` with `a` as local identity and `b` as recipient equals the one derived with
`b` as local identity and `a` as recipient. -/
theorem thread_id_symmetry (a b : JSString) : threadIdOf a b = threadIdOf b a :=
  threadIdOf_comm a b

/-- C2. Thread-id format: the derived id is the smaller hash, then `:`, then the larger hash
(the two hashes in an order in which the second is not smaller than the first); `aa11` and
`bb22` give `aa11:bb22` in both roles; and `connectToUser`, on an accepted input that trims to
`b`, leaves the same id as current thread id that `sendMessage` puts in its request for the
recipient `b`. -/
theorem thread_id_format (a b : JSString) :
    (∃ lo hi : JSString, threadIdOf a b = lo ++ colon :: hi ∧
        ((lo = a ∧ hi = b) ∨ (lo = b ∧ hi = a)) ∧ isLessThan hi lo = false) ∧
    threadIdOf (utf16 "aa11") (utf16 "bb22") = utf16 "aa11:bb22" ∧
    threadIdOf (utf16 "bb22") (utf16 "aa11") = utf16 "aa11:bb22" ∧
    (∀ (st : State) (me : Identity) (value : JSString) (now : Int),
        st.currentIdentity = some me → me.identityHash = a → trim value = b →
        b ≠ [] → b ≠ a →
        (connectToUser st value now).currentThreadId = some (threadIdOf a b)) ∧
    (∀ (st : State) (me : Identity) (text : JSString),
        st.currentIdentity = some me → me.identityHash = a →
        st.recipientIdentity = some b → b ≠ [] → trim text ≠ [] →
        (sendMessage st text).2 = some { threadId := threadIdOf a b, plaintext := trim text } ∧
        (sendMessage st text).1.log = st.log ++ [Effect.fetchSend
          { thread_id := threadIdOf a b, recipient_id := b, plaintext := trim text,
            sender_identity_hash := a }]) := by
  refine ⟨?_, by decide, by decide, ?_, ?_⟩
  · rw [threadIdOf_eq]
    cases h : isLessThan b a
    · exact ⟨a, b, by simp, Or.inl ⟨rfl, rfl⟩, h⟩
    · exact ⟨b, a, by simp, Or.inr ⟨rfl, rfl⟩, isLessThan_asymm b a h⟩
  · intro st me value now hid hme hval hb hab
    subst hme hval
    exact connectToUser_currentThreadId st me value now hid hb hab
  · intro st me text hid hme hrec hb ht
    subst hme
    rw [sendMessage_pending st me b text hid hrec hb ht]
    exact ⟨rfl, rfl⟩

/-- Witness of C2: with the identity `aa11`, `connectToUser` on the input ` bb22 ` and
`sendMessage` to the recipient `bb22` both use the id of the pair. -/
theorem thread_id_format_witness :
    (connectToUser sampleState (utf16 " bb22 ") 7).currentThreadId
        = some (threadIdOf (utf16 "aa11") (utf16 "bb22")) ∧
    (sendMessage sampleChatState (utf16 "hi")).2
        = some { threadId := threadIdOf (utf16 "aa11") (utf16 "bb22"),
                 plaintext := trim (utf16 "hi") } :=
  ⟨(thread_id_format (utf16 "aa11") (utf16 "bb22")).2.2.2.1 sampleState sampleIdentity
      (utf16 " bb22 ") 7 rfl rfl (by decide) (by decide) (by decide),
   ((thread_id_format (utf16 "aa11") (utf16 "bb22")).2.2.2.2 sampleChatState sampleIdentity
      (utf16 "hi") rfl rfl rfl (by decide) (by decide)).1⟩

/-! ## Lemmas: the conversation map -/

theorem mapGet_mapSet_self (k : JSString) (v : Conversation) :
    ∀ m : ConvMap, mapGet (mapSet m k v) k = some v
  | [] => by simp [mapSet, mapGet]
  | (k1, v1) :: rest => by
    by_cases h : k1 = k
    · simp [mapSet, mapGet, h]
    · simp [mapSet, mapGet, h, mapGet_mapSet_self k v rest]

theorem mapGet_mapSet_ne (k k2 : JSString) (v : Conversation) (hne : k2 ≠ k) :
    ∀ m : ConvMap, mapGet (mapSet m k v) k2 = mapGet m k2
  | [] => by simp [mapSet, mapGet, Ne.symm hne]
  | (k1, v1) :: rest => by
    by_cases h : k1 = k
    · subst h
      simp [mapSet, mapGet, Ne.symm hne]
    · by_cases h2 : k1 = k2
      · subst h2
        simp [mapSet, mapGet, h]
      · simp [mapSet, mapGet, h, h2, mapGet_mapSet_ne k k2 v hne rest]

theorem mapGet_mapUpdate_self (k : JSString) (f : Conversation → Conversation) :
    ∀ m : ConvMap, mapGet (mapUpdate m k f) k = (mapGet m k).map f
  | [] => by simp [mapUpdate, mapGet]
  | (k1, v1) :: rest => by
    by_cases h : k1 = k
    · simp [mapUpdate, mapGet, h]
    · simp [mapUpdate, mapGet, h, mapGet_mapUpdate_self k f rest]

theorem mapGet_mapUpdate_ne (k k2 : JSString) (f : Conversation → Conversation) (hne : k2 ≠ k) :
    ∀ m : ConvMap, mapGet (mapUpdate m k f) k2 = mapGet m k2
  | [] => by simp [mapUpdate, mapGet]
  | (k1, v1) :: rest => by
    by_cases h : k1 = k
    · subst h
      simp [mapUpdate, mapGet, Ne.symm hne]
    · by_cases h2 : k1 = k2
      · subst h2
        simp [mapUpdate, mapGet, h]
      · simp [mapUpdate, mapGet, h, h2, mapGet_mapUpdate_ne k k2 f hne rest]

theorem previewMonotone_refl (m : ConvMap) : PreviewMonotone m m :=
  fun _ c h => ⟨c, h, le_refl _, fun hne => absurd rfl hne⟩

/-- Overwriting the preview of `k` keeps the invariant when the new timestamp is strictly
greater than the stored one, and leaves the other entries as they were. -/
theorem previewMonotone_mapUpdate (m : ConvMap) (k text : JSString) (t : Int)
    (h : ∀ c, mapGet m k = some c → c.timestamp < t) :
    PreviewMonotone m
      (mapUpdate m k fun c => { c with lastMessage := text, timestamp := t }) := by
  intro k2 c hc
  by_cases hk : k2 = k
  · subst hk
    refine ⟨{ c with lastMessage := text, timestamp := t }, ?_, le_of_lt (h c hc), fun _ => h c hc⟩
    rw [mapGet_mapUpdate_self, hc]
    rfl
  · refine ⟨c, ?_, le_refl _, fun hne => absurd rfl hne⟩
    rw [mapGet_mapUpdate_ne _ _ _ hk, hc]

theorem previewMonotone_mapSet (m : ConvMap) (k : JSString) (v : Conversation)
    (h : mapGet m k = none) : PreviewMonotone m (mapSet m k v) := by
  intro k2 c hc
  have hk : k2 ≠ k := fun e => by rw [e, h] at hc; cases hc
  refine ⟨c, ?_, le_refl _, fun hne => absurd rfl hne⟩
  rw [mapGet_mapSet_ne _ _ _ hk, hc]

theorem previewMonotone_mergeThread (m : ConvMap) (thread : Thread) (messages : List Message) :
    PreviewMonotone m (mergeThread m thread messages) := by
  unfold mergeThread
  cases messages.getLast? with
  | none => exact previewMonotone_refl m
  | some lastMsg =>
    simp only
    cases hg : mapGet m thread.thread_id with
    | none => exact previewMonotone_mapSet m _ _ hg
    | some conv =>
      simp only
      split
      · rename_i hgt
        apply previewMonotone_mapUpdate
        intro c hc
        rw [hg] at hc
        cases hc
        exact hgt
      · exact previewMonotone_refl m

/-! ## Lemmas: state projections -/

@[simp]
theorem saveConversations_conversations (st : State) :
    (saveConversations st).conversations = st.conversations := rfl
@[simp]
theorem saveConversations_storedConversations (st : State) :
    (saveConversations st).storedConversations = some st.conversations := rfl
@[simp]
theorem saveConversations_currentThreadId (st : State) :
    (saveConversations st).currentThreadId = st.currentThreadId := rfl
@[simp]
theorem saveConversations_currentIdentity (st : State) :
    (saveConversations st).currentIdentity = st.currentIdentity := rfl
@[simp]
theorem saveConversations_lastMessageCount (st : State) :
    (saveConversations st).lastMessageCount = st.lastMessageCount := rfl
@[simp]
theorem renderConversations_conversations (st : State) :
    (renderConversations st).conversations = st.conversations := rfl
@[simp]
theorem renderConversations_storedConversations (st : State) :
    (renderConversations st).storedConversations = st.storedConversations := rfl
@[simp]
theorem renderConversations_currentThreadId (st : State) :
    (renderConversations st).currentThreadId = st.currentThreadId := rfl
@[simp]
theorem renderConversations_currentIdentity (st : State) :
    (renderConversations st).currentIdentity = st.currentIdentity := rfl
@[simp]
theorem renderConversations_lastMessageCount (st : State) :
    (renderConversations st).lastMessageCount = st.lastMessageCount := rfl
theorem displayMessages_frame (st : State) (ms : List Message) :
    (displayMessages st ms).1.conversations = st.conversations ∧
    (displayMessages st ms).1.lastMessageCount = st.lastMessageCount := by
  unfold displayMessages
  simp only
  split <;> exact ⟨rfl, rfl⟩

theorem loadMessages_catch_frame (st : State) (silent : Bool) :
    (loadMessages_catch st silent).conversations = st.conversations ∧
    (loadMessages_catch st silent).lastMessageCount = st.lastMessageCount := by
  unfold loadMessages_catch
  split <;> exact ⟨rfl, rfl⟩

theorem updatePreview_conversations (st : State) (messages : List Message) :
    (updatePreview st messages).conversations
      = match messages.getLast?, st.currentThreadId with
        | some lastMsg, some threadId =>
          if mapHas st.conversations threadId then
            mapUpdate st.conversations threadId fun conv =>
              { conv with lastMessage := lastMsg.text, timestamp := lastMsg.timestamp * 1000 }
          else st.conversations
        | _, _ => st.conversations := by
  unfold updatePreview
  cases messages.getLast? <;> cases st.currentThreadId <;> simp only
  split <;> rfl

theorem mapHas_eq_true_iff (m : ConvMap) (k : JSString) :
    mapHas m k = true ↔ ∃ c, mapGet m k = some c := by
  unfold mapHas
  cases mapGet m k <;> simp

/-- The map after the continuation of `loadMessages`. -/
theorem loadMessages_then_conversations (st : State) (silent : Bool) (messages : List Message) :
    (loadMessages_then st silent messages).conversations
      = if messages.length ≠ st.lastMessageCount then
          match messages.getLast?, st.currentThreadId with
          | some lastMsg, some threadId =>
            if mapHas st.conversations threadId then
              mapUpdate st.conversations threadId fun conv =>
                { conv with lastMessage := lastMsg.text, timestamp := lastMsg.timestamp * 1000 }
            else st.conversations
          | _, _ => st.conversations
        else st.conversations := by
  unfold loadMessages_then
  split
  · have h1 : ∀ shown : State × Bool,
        (if shown.2 then shown.1 else loadMessages_catch shown.1 silent).conversations
          = shown.1.conversations := by
      intro shown
      split
      · rfl
      · exact (loadMessages_catch_frame _ _).1
    simp only
    rw [h1, (displayMessages_frame _ _).1, updatePreview_conversations]
    cases silent <;> rfl
  · rfl

/-- The map after the continuation of `sendMessage`. -/
theorem sendMessage_then_conversations (st : State) (p : PendingSend) (now : Int) :
    (sendMessage_then st p now).conversations
      = if mapHas st.conversations p.threadId then
          mapUpdate st.conversations p.threadId fun conv =>
            { conv with lastMessage := p.plaintext, timestamp := now }
        else st.conversations := by
  unfold sendMessage_then
  simp only [emit_conversations]
  split <;> rfl

theorem refreshThread_conversations_eq (st : State) (item : Thread × Option (List Message)) :
    (refreshThread st item).conversations = mergeItem st.conversations item := by
  unfold refreshThread mergeItem
  cases item.2 <;> rfl


/-! ## Monotonic preview -/

theorem previewMonotone_loadMessages_then (st : State) (silent : Bool)
    (messages : List Message)
    (h : ∀ T c m, st.currentThreadId = some T → mapGet st.conversations T = some c →
      messages.getLast? = some m → c.timestamp < m.timestamp * 1000) :
    PreviewMonotone st.conversations (loadMessages_then st silent messages).conversations := by
  rw [loadMessages_then_conversations]
  split
  · cases hm : messages.getLast? with
    | none => exact previewMonotone_refl _
    | some m =>
      cases hT : st.currentThreadId with
      | none => exact previewMonotone_refl _
      | some T =>
        simp only
        split
        · exact previewMonotone_mapUpdate _ _ _ _ fun c hc => h T c m hT hc hm
        · exact previewMonotone_refl _
  · exact previewMonotone_refl _

theorem previewMonotone_sendMessage_then (st : State) (p : PendingSend) (now : Int)
    (h : ∀ c, mapGet st.conversations p.threadId = some c → c.timestamp < now) :
    PreviewMonotone st.conversations (sendMessage_then st p now).conversations := by
  rw [sendMessage_then_conversations]
  split
  · exact previewMonotone_mapUpdate _ _ _ _ h
  · exact previewMonotone_refl _

theorem loadMessages_then_frame (st : State) (silent : Bool) (messages : List Message)
    (k : JSString) (hk : st.currentThreadId ≠ some k) :
    mapGet (loadMessages_then st silent messages).conversations k
      = mapGet st.conversations k := by
  rw [loadMessages_then_conversations]
  split
  · cases hm : messages.getLast? with
    | none => rfl
    | some m =>
      cases hT : st.currentThreadId with
      | none => rfl
      | some T =>
        simp only
        split
        · exact mapGet_mapUpdate_ne _ _ _ (fun e => hk (by rw [hT, e])) _
        · rfl
  · rfl

theorem sendMessage_then_frame (st : State) (p : PendingSend) (now : Int)
    (k : JSString) (hk : k ≠ p.threadId) :
    mapGet (sendMessage_then st p now).conversations k = mapGet st.conversations k := by
  rw [sendMessage_then_conversations]
  split
  · exact mapGet_mapUpdate_ne _ _ _ hk _
  · rfl

/-- C3, as amended. For every entry already in the map: the per-thread merge of
`refreshConversationsFromServer` (alone and as a loop iteration) never decreases its timestamp
and changes its `lastMessage` only when the timestamp strictly increases. The response
handling of `loadMessages` and the post-send update of `sendMessage` leave the entries of all
other threads as they were, and keep the same invariant whenever the incoming timestamp (the
final message's `timestamp * 1000`, respectively the clock value) is strictly greater than the
stored timestamp of the thread they write. -/
theorem preview_monotone_steps (st : State) :
    (∀ (thread : Thread) (messages : List Message),
        PreviewMonotone st.conversations (mergeThread st.conversations thread messages)) ∧
    (∀ (item : Thread × Option (List Message)),
        PreviewMonotone st.conversations (refreshThread st item).conversations) ∧
    (∀ (silent : Bool) (messages : List Message),
        (∀ k, st.currentThreadId ≠ some k →
          mapGet (loadMessages_then st silent messages).conversations k
            = mapGet st.conversations k) ∧
        ((∀ T c m, st.currentThreadId = some T → mapGet st.conversations T = some c →
            messages.getLast? = some m → c.timestamp < m.timestamp * 1000) →
          PreviewMonotone st.conversations
            (loadMessages_then st silent messages).conversations)) ∧
    (∀ (p : PendingSend) (now : Int),
        (∀ k, k ≠ p.threadId →
          mapGet (sendMessage_then st p now).conversations k = mapGet st.conversations k) ∧
        ((∀ c, mapGet st.conversations p.threadId = some c → c.timestamp < now) →
          PreviewMonotone st.conversations (sendMessage_then st p now).conversations)) := by
  refine ⟨fun thread messages => previewMonotone_mergeThread _ thread messages, ?_, ?_, ?_⟩
  · intro item
    rw [refreshThread_conversations_eq]
    unfold mergeItem
    cases item.2 with
    | none => exact previewMonotone_refl _
    | some messages => exact previewMonotone_mergeThread _ _ _
  · intro silent messages
    exact ⟨fun k hk => loadMessages_then_frame st silent messages k hk,
      previewMonotone_loadMessages_then st silent messages⟩
  · intro p now
    exact ⟨fun k hk => sendMessage_then_frame st p now k hk,
      previewMonotone_sendMessage_then st p now⟩

/-- Witness of C3: on the sample chat (stored timestamp 5000) a final message at 6 s and a send
at clock value 5001 both satisfy the hypothesis on the incoming timestamp. -/
theorem preview_monotone_steps_witness :
    PreviewMonotone sampleChatState.conversations
      (loadMessages_then sampleChatState false [sampleMessage "newer" 6]).conversations ∧
    PreviewMonotone sampleChatState.conversations
      (sendMessage_then sampleChatState
        { threadId := utf16 "aa11:bb22", plaintext := utf16 "hi" } 5001).conversations :=
  ⟨((preview_monotone_steps sampleChatState).2.2.1 false [sampleMessage "newer" 6]).2
      (by
        intro T c m hT hc hm
        have h1 : T = utf16 "aa11:bb22" := (Option.some.inj hT).symm
        subst h1
        have h2 : c = sampleConversation := (Option.some.inj hc).symm
        have h3 : m = sampleMessage "newer" 6 := (Option.some.inj hm).symm
        subst h2 h3
        decide),
   ((preview_monotone_steps sampleChatState).2.2.2
        { threadId := utf16 "aa11:bb22", plaintext := utf16 "hi" } 5001).2
      (by
        intro c hc
        have h2 : c = sampleConversation := (Option.some.inj hc).symm
        subst h2
        decide)⟩

theorem not_previewMonotone_of_lt {before after : ConvMap} (k : JSString) (c c1 : Conversation)
    (hb : mapGet before k = some c) (ha : mapGet after k = some c1)
    (hlt : c1.timestamp < c.timestamp) : ¬ PreviewMonotone before after := by
  intro h
  obtain ⟨c2, hc2, hle, _⟩ := h k c hb
  rw [ha] at hc2
  cases hc2
  exact absurd hlt (not_lt.mpr hle)

/-- Counterexample to C3 as stated: with the entry `(new, 5000)` stored, the response handling
of `loadMessages` on a changed list ending in `(old, 1 s)` leaves `(old, 1000)`, and the
post-send update at clock value 4000 leaves `(hi, 4000)`; the timestamp decreased in both. -/
theorem preview_regresses :
    mapGet sampleChatState.conversations (utf16 "aa11:bb22")
      = some ⟨utf16 "bb22", utf16 "new", 5000⟩ ∧
    mapGet (loadMessages_then sampleChatState false [sampleMessage "old" 1]).conversations
        (utf16 "aa11:bb22")
      = some ⟨utf16 "bb22", utf16 "old", 1000⟩ ∧
    mapGet (sendMessage_then sampleChatState ⟨utf16 "aa11:bb22", utf16 "hi"⟩ 4000).conversations
        (utf16 "aa11:bb22")
      = some ⟨utf16 "bb22", utf16 "hi", 4000⟩ ∧
    ¬ PreviewMonotone sampleChatState.conversations
        (loadMessages_then sampleChatState false [sampleMessage "old" 1]).conversations ∧
    ¬ PreviewMonotone sampleChatState.conversations
        (sendMessage_then sampleChatState ⟨utf16 "aa11:bb22", utf16 "hi"⟩ 4000).conversations :=
  ⟨by decide, by decide, by decide,
   not_previewMonotone_of_lt (utf16 "aa11:bb22") ⟨utf16 "bb22", utf16 "new", 5000⟩
     ⟨utf16 "bb22", utf16 "old", 1000⟩ (by decide) (by decide) (by decide),
   not_previewMonotone_of_lt (utf16 "aa11:bb22") ⟨utf16 "bb22", utf16 "new", 5000⟩
     ⟨utf16 "bb22", utf16 "hi", 4000⟩ (by decide) (by decide) (by decide)⟩

/-! ## The sync merge -/

theorem mergeThread_absent (m : ConvMap) (thread : Thread) (messages : List Message)
    (lastMsg : Message) (hl : messages.getLast? = some lastMsg)
    (habs : mapGet m thread.thread_id = none) :
    mergeThread m thread messages
      = mapSet m thread.thread_id ⟨thread.other_identity_hash, lastMsg.text,
          thread.last_message_time * 1000⟩ := by
  simp [mergeThread, hl, habs]

theorem mergeThread_newer (m : ConvMap) (thread : Thread) (messages : List Message)
    (lastMsg : Message) (conv : Conversation) (hl : messages.getLast? = some lastMsg)
    (hg : mapGet m thread.thread_id = some conv)
    (hgt : conv.timestamp < thread.last_message_time * 1000) :
    mergeThread m thread messages
      = mapUpdate m thread.thread_id fun c =>
          { c with lastMessage := lastMsg.text, timestamp := thread.last_message_time * 1000 } := by
  simp [mergeThread, hl, hg, hgt]

theorem mergeThread_stale (m : ConvMap) (thread : Thread) (messages : List Message)
    (conv : Conversation) (hg : mapGet m thread.thread_id = some conv)
    (hle : thread.last_message_time * 1000 ≤ conv.timestamp) :
    mergeThread m thread messages = m := by
  unfold mergeThread
  cases messages.getLast? with
  | none => rfl
  | some lastMsg => simp [hg, not_lt.mpr hle]

theorem mergeThread_other (m : ConvMap) (thread : Thread) (messages : List Message)
    (k : JSString) (hk : k ≠ thread.thread_id) :
    mapGet (mergeThread m thread messages) k = mapGet m k := by
  unfold mergeThread
  cases messages.getLast? with
  | none => rfl
  | some lastMsg =>
    simp only
    cases hg : mapGet m thread.thread_id with
    | none => exact mapGet_mapSet_ne _ _ _ hk _
    | some conv =>
      simp only
      split
      · exact mapGet_mapUpdate_ne _ _ _ hk _
      · rfl

/-- C4. Order independence of the cache merge: for a thread id absent from the map and two
non-empty histories whose descriptors carry times `s1 * 1000 < s2 * 1000`, merging the first
then the second, or the second then the first, leaves the entry of that thread with the
timestamp `s2 * 1000` and the text of the last message of the second history. -/
theorem merge_order_independent (m : ConvMap) (T h1 h2 : JSString) (s1 s2 : Int)
    (msgs1 msgs2 : List Message) (m1 m2 : Message)
    (habs : mapGet m T = none)
    (hl1 : msgs1.getLast? = some m1) (hl2 : msgs2.getLast? = some m2)
    (hlt : s1 * 1000 < s2 * 1000) :
    mapGet (mergeThread (mergeThread m ⟨T, h1, s1⟩ msgs1) ⟨T, h2, s2⟩ msgs2) T
      = some ⟨h1, m2.text, s2 * 1000⟩ ∧
    mapGet (mergeThread (mergeThread m ⟨T, h2, s2⟩ msgs2) ⟨T, h1, s1⟩ msgs1) T
      = some ⟨h2, m2.text, s2 * 1000⟩ := by
  constructor
  · rw [mergeThread_absent m ⟨T, h1, s1⟩ msgs1 m1 hl1 habs]
    rw [mergeThread_newer _ ⟨T, h2, s2⟩ msgs2 m2 ⟨h1, m1.text, s1 * 1000⟩ hl2
      (mapGet_mapSet_self _ _ _) hlt]
    rw [mapGet_mapUpdate_self, mapGet_mapSet_self]
    rfl
  · rw [mergeThread_absent m ⟨T, h2, s2⟩ msgs2 m2 hl2 habs]
    rw [mergeThread_stale _ ⟨T, h1, s1⟩ msgs1 ⟨h2, m2.text, s2 * 1000⟩
      (mapGet_mapSet_self _ _ _) (le_of_lt hlt)]
    exact mapGet_mapSet_self _ _ _

/-- Witness of C4 on the empty map with the thread `aa11:bb22` at 1 s and at 2 s. -/
theorem merge_order_independent_witness :
    mapGet (mergeThread (mergeThread [] (sampleThread "aa11:bb22" "bb22" 1)
        [sampleMessage "first" 1]) (sampleThread "aa11:bb22" "bb22" 2)
        [sampleMessage "first" 1, sampleMessage "second" 2]) (utf16 "aa11:bb22")
      = some ⟨utf16 "bb22", (sampleMessage "second" 2).text, 2 * 1000⟩ ∧
    mapGet (mergeThread (mergeThread [] (sampleThread "aa11:bb22" "bb22" 2)
        [sampleMessage "first" 1, sampleMessage "second" 2]) (sampleThread "aa11:bb22" "bb22" 1)
        [sampleMessage "first" 1]) (utf16 "aa11:bb22")
      = some ⟨utf16 "bb22", (sampleMessage "second" 2).text, 2 * 1000⟩ :=
  merge_order_independent [] (utf16 "aa11:bb22") (utf16 "bb22") (utf16 "bb22") 1 2
    [sampleMessage "first" 1] [sampleMessage "first" 1, sampleMessage "second" 2]
    (sampleMessage "first" 1) (sampleMessage "second" 2) rfl rfl rfl (by decide)

theorem refreshThread_frame (st : State) (item : Thread × Option (List Message)) :
    (refreshThread st item).storedConversations = st.storedConversations ∧
    (refreshThread st item).currentThreadId = st.currentThreadId ∧
    (refreshThread st item).lastMessageCount = st.lastMessageCount ∧
    (refreshThread st item).currentIdentity = st.currentIdentity := by
  unfold refreshThread
  cases item.2 <;> exact ⟨rfl, rfl, rfl, rfl⟩

theorem foldl_refreshThread_conversations (items : List (Thread × Option (List Message))) :
    ∀ st : State, (items.foldl refreshThread st).conversations
      = items.foldl mergeItem st.conversations := by
  induction items with
  | nil => intro st; rfl
  | cons item rest ih =>
    intro st
    rw [List.foldl_cons, List.foldl_cons, ih, refreshThread_conversations_eq]

theorem loadMessages_conversations (st : State) :
    (loadMessages st).conversations = st.conversations := by
  unfold loadMessages
  cases st.currentThreadId with
  | none => rfl
  | some t =>
    simp only
    split <;> rfl

theorem loadMessages_storedConversations (st : State) :
    (loadMessages st).storedConversations = st.storedConversations := by
  unfold loadMessages
  cases st.currentThreadId with
  | none => rfl
  | some t =>
    simp only
    split <;> rfl

theorem refresh_conversations (st : State) (me : Identity)
    (items : List (Thread × Option (List Message))) (hid : st.currentIdentity = some me) :
    (refreshConversationsFromServer st (some items)).conversations
      = items.foldl mergeItem st.conversations := by
  unfold refreshConversationsFromServer
  simp only [hid]
  split
  · rw [loadMessages_conversations]
    simp [foldl_refreshThread_conversations]
  · simp [foldl_refreshThread_conversations]

theorem refresh_storedConversations (st : State) (me : Identity)
    (items : List (Thread × Option (List Message))) (hid : st.currentIdentity = some me) :
    (refreshConversationsFromServer st (some items)).storedConversations
      = some (items.foldl mergeItem st.conversations) := by
  unfold refreshConversationsFromServer
  simp only [hid]
  split
  · rw [loadMessages_storedConversations]
    simp [foldl_refreshThread_conversations]
  · simp [foldl_refreshThread_conversations]

theorem foldl_mergeItem_other (k : JSString) (items : List (Thread × Option (List Message))) :
    ∀ m : ConvMap, (∀ it ∈ items, it.1.thread_id ≠ k) →
      mapGet (items.foldl mergeItem m) k = mapGet m k := by
  induction items with
  | nil => intro m _; rfl
  | cons item rest ih =>
    intro m h
    rw [List.foldl_cons, ih _ fun it hit => h it (List.mem_cons_of_mem _ hit)]
    have hk : k ≠ item.1.thread_id := fun e => h item (List.mem_cons_self _ _) e.symm
    unfold mergeItem
    cases item.2 with
    | none => rfl
    | some messages => exact mergeThread_other m item.1 messages k hk

/-- C5, as amended. Stale remote data is ignored by the sync merge: when the map holds the
thread of a descriptor `d` with entry `c`, the history fetched for `d` is non-empty and no other
descriptor of the list has that thread id, then as `refreshConversationsFromServer` returns
(the message request it issues for the open thread not yet answered) the entry is `c`
itself if `d.last_message_time * 1000 ≤ c.timestamp`, and otherwise has the timestamp
`d.last_message_time * 1000`, the text of the last remote message and the `recipientHash`
of `c`. -/
theorem stale_remote_ignored (st : State) (me : Identity)
    (pre post : List (Thread × Option (List Message))) (d : Thread) (msgs : List Message)
    (lastMsg : Message) (c : Conversation)
    (hid : st.currentIdentity = some me)
    (hc : mapGet st.conversations d.thread_id = some c)
    (hl : msgs.getLast? = some lastMsg)
    (hpre : ∀ it ∈ pre, it.1.thread_id ≠ d.thread_id)
    (hpost : ∀ it ∈ post, it.1.thread_id ≠ d.thread_id) :
    (d.last_message_time * 1000 ≤ c.timestamp →
      mapGet (refreshConversationsFromServer st
        (some (pre ++ (d, some msgs) :: post))).conversations d.thread_id = some c) ∧
    (c.timestamp < d.last_message_time * 1000 →
      mapGet (refreshConversationsFromServer st
        (some (pre ++ (d, some msgs) :: post))).conversations d.thread_id
        = some ⟨c.recipientHash, lastMsg.text, d.last_message_time * 1000⟩) := by
  rw [refresh_conversations st me _ hid, List.foldl_append, List.foldl_cons,
    foldl_mergeItem_other _ post _ hpost]
  have hc1 : mapGet (pre.foldl mergeItem st.conversations) d.thread_id = some c := by
    rw [foldl_mergeItem_other _ pre _ hpre, hc]
  constructor
  · intro hle
    show mapGet (mergeThread _ d msgs) d.thread_id = some c
    rw [mergeThread_stale _ d msgs c hc1 hle, hc1]
  · intro hgt
    show mapGet (mergeThread _ d msgs) d.thread_id = _
    rw [mergeThread_newer _ d msgs lastMsg c hl hc1 hgt, mapGet_mapUpdate_self, hc1]
    rfl

/-- Witness of C5: stored timestamp 1000; a remote time of 0 leaves the entry unchanged, a
remote time of 2 s replaces text and timestamp. -/
theorem stale_remote_ignored_witness :
    mapGet (refreshConversationsFromServer sampleStoreState
        (some ([] ++ ((sampleThread "aa11:bb22" "bb22" 0),
          some [sampleMessage "old" 0]) :: []))).conversations (utf16 "aa11:bb22")
      = some ⟨utf16 "bb22", utf16 "new", 1000⟩ ∧
    mapGet (refreshConversationsFromServer sampleStoreState
        (some ([] ++ ((sampleThread "aa11:bb22" "bb22" 2),
          some [sampleMessage "newer" 2]) :: []))).conversations (utf16 "aa11:bb22")
      = some ⟨utf16 "bb22", (sampleMessage "newer" 2).text, 2 * 1000⟩ :=
  ⟨(stale_remote_ignored sampleStoreState sampleIdentity [] []
      (sampleThread "aa11:bb22" "bb22" 0) [sampleMessage "old" 0] (sampleMessage "old" 0)
      ⟨utf16 "bb22", utf16 "new", 1000⟩ rfl (by decide) rfl
      (fun _ h => absurd h (List.not_mem_nil _)) (fun _ h => absurd h (List.not_mem_nil _))).1
      (by decide),
   (stale_remote_ignored sampleStoreState sampleIdentity [] []
      (sampleThread "aa11:bb22" "bb22" 2) [sampleMessage "newer" 2] (sampleMessage "newer" 2)
      ⟨utf16 "bb22", utf16 "new", 1000⟩ rfl (by decide) rfl
      (fun _ h => absurd h (List.not_mem_nil _)) (fun _ h => absurd h (List.not_mem_nil _))).2
      (by decide)⟩

/-- Counterexample to C5 as stated, with the entry `(new, 1000)` stored: the descriptor with
time 0 is stale, yet a second descriptor of the same list for the same thread id, with time 2,
leaves `(newer, 2000)`; and with the stale descriptor alone, once the message request that the
function issues for the open thread is answered with the same history, `loadMessages` leaves
`(old, 0)`. -/
theorem stale_descriptor_then_newer :
    mapGet sampleStoreState.conversations (utf16 "aa11:bb22")
      = some ⟨utf16 "bb22", utf16 "new", 1000⟩ ∧
    (sampleThread "aa11:bb22" "bb22" 0).last_message_time * 1000 ≤ 1000 ∧
    mapGet (refreshConversationsFromServer sampleStoreState
        (some [(sampleThread "aa11:bb22" "bb22" 0, some [sampleMessage "old" 0]),
               (sampleThread "aa11:bb22" "bb22" 2, some [sampleMessage "newer" 2])])).conversations
        (utf16 "aa11:bb22")
      = some ⟨utf16 "bb22", utf16 "newer", 2000⟩ ∧
    mapGet (loadMessages_then (refreshConversationsFromServer sampleStoreState
        (some [(sampleThread "aa11:bb22" "bb22" 0, some [sampleMessage "old" 0])]))
        false [sampleMessage "old" 0]).conversations (utf16 "aa11:bb22")
      = some ⟨utf16 "bb22", utf16 "old", 0⟩ := by
  decide

theorem foldl_mergeItem_filter (items : List (Thread × Option (List Message))) :
    ∀ m : ConvMap, items.foldl mergeItem m
      = (items.filter fun it => it.2.isSome).foldl mergeItem m := by
  induction items with
  | nil => intro m; rfl
  | cons item rest ih =>
    intro m
    obtain ⟨d, r⟩ := item
    cases r with
    | none =>
      rw [List.foldl_cons, List.filter_cons_of_neg (by simp), ← ih]
      rfl
    | some messages =>
      rw [List.foldl_cons, List.filter_cons_of_pos (by simp), List.foldl_cons, ← ih]

theorem mapHas_mergeThread_self (m : ConvMap) (thread : Thread) (messages : List Message)
    (hne : messages ≠ []) : mapHas (mergeThread m thread messages) thread.thread_id = true := by
  obtain ⟨lastMsg, hl⟩ : ∃ x, messages.getLast? = some x := by
    cases h : messages.getLast? with
    | none => exact absurd (List.getLast?_eq_none_iff.mp h) hne
    | some x => exact ⟨x, rfl⟩
  rw [mapHas_eq_true_iff]
  cases hg : mapGet m thread.thread_id with
  | none =>
    rw [mergeThread_absent m thread messages lastMsg hl hg]
    exact ⟨_, mapGet_mapSet_self _ _ _⟩
  | some conv =>
    obtain ⟨c1, hc1, _⟩ := previewMonotone_mergeThread m thread messages _ conv hg
    exact ⟨c1, hc1⟩

theorem mapHas_mergeThread_of_mapHas (m : ConvMap) (thread : Thread) (messages : List Message)
    (k : JSString) (h : mapHas m k = true) : mapHas (mergeThread m thread messages) k = true := by
  rw [mapHas_eq_true_iff] at h ⊢
  obtain ⟨c, hc⟩ := h
  obtain ⟨c1, hc1, _⟩ := previewMonotone_mergeThread m thread messages k c hc
  exact ⟨c1, hc1⟩

/-- C6. Partial failure isolation: the map and the persisted data after
`refreshConversationsFromServer` equal those obtained from the same list without the threads
whose message request failed; and with three threads with non-empty histories of which only
the second request fails, the result is the merge of the first and the third, both of which
are in the map afterwards. -/
theorem partial_failure_isolation (st : State)
    (items : List (Thread × Option (List Message))) :
    (refreshConversationsFromServer st (some items)).conversations
      = (refreshConversationsFromServer st
          (some (items.filter fun it => it.2.isSome))).conversations ∧
    (refreshConversationsFromServer st (some items)).storedConversations
      = (refreshConversationsFromServer st
          (some (items.filter fun it => it.2.isSome))).storedConversations ∧
    (∀ (me : Identity) (d1 d2 d3 : Thread) (msgs1 msgs3 : List Message),
      st.currentIdentity = some me → msgs1 ≠ [] → msgs3 ≠ [] →
      (refreshConversationsFromServer st
          (some [(d1, some msgs1), (d2, none), (d3, some msgs3)])).conversations
        = mergeThread (mergeThread st.conversations d1 msgs1) d3 msgs3 ∧
      mapHas (refreshConversationsFromServer st
          (some [(d1, some msgs1), (d2, none), (d3, some msgs3)])).conversations
        d1.thread_id = true ∧
      mapHas (refreshConversationsFromServer st
          (some [(d1, some msgs1), (d2, none), (d3, some msgs3)])).conversations
        d3.thread_id = true) := by
  refine ⟨?_, ?_, ?_⟩
  · cases hid : st.currentIdentity with
    | none => simp [refreshConversationsFromServer, hid]
    | some me =>
      rw [refresh_conversations st me _ hid, refresh_conversations st me _ hid,
        ← foldl_mergeItem_filter]
  · cases hid : st.currentIdentity with
    | none => simp [refreshConversationsFromServer, hid]
    | some me =>
      rw [refresh_storedConversations st me _ hid, refresh_storedConversations st me _ hid,
        ← foldl_mergeItem_filter]
  · intro me d1 d2 d3 msgs1 msgs3 hid h1 h3
    rw [refresh_conversations st me _ hid]
    refine ⟨rfl, ?_, ?_⟩
    · exact mapHas_mergeThread_of_mapHas _ d3 msgs3 _
        (mapHas_mergeThread_self st.conversations d1 msgs1 h1)
    · exact mapHas_mergeThread_self _ d3 msgs3 h3

/-- Witness of C6: three threads on the empty map, the request for the second fails. -/
theorem partial_failure_isolation_witness :
    (refreshConversationsFromServer sampleState (some sampleItems)).conversations
      = mergeThread (mergeThread sampleState.conversations (sampleThread "aa11:bb22" "bb22" 1)
          [sampleMessage "one" 1]) (sampleThread "aa11:dd44" "dd44" 3) [sampleMessage "three" 3] ∧
    mapHas (refreshConversationsFromServer sampleState (some sampleItems)).conversations
        (utf16 "aa11:bb22") = true ∧
    mapHas (refreshConversationsFromServer sampleState (some sampleItems)).conversations
        (utf16 "aa11:dd44") = true :=
  (partial_failure_isolation sampleState []).2.2 sampleIdentity
    (sampleThread "aa11:bb22" "bb22" 1) (sampleThread "aa11:cc33" "cc33" 2)
    (sampleThread "aa11:dd44" "dd44" 3) [sampleMessage "one" 1] [sampleMessage "three" 3]
    rfl (by decide) (by decide)

/-! ## Thread-list failure, change detection and send -/

/-- C7. Atomicity on thread-list failure: when the thread-list request fails, the map, the
persisted data, the current thread id and the last-known count are as before, and none of
the calls made is a `saveConversations`, a renderer call or a message request. -/
theorem thread_list_failure_atomic (st : State) :
    (refreshConversationsFromServer st none).conversations = st.conversations ∧
    (refreshConversationsFromServer st none).storedConversations = st.storedConversations ∧
    (refreshConversationsFromServer st none).currentThreadId = st.currentThreadId ∧
    (refreshConversationsFromServer st none).lastMessageCount = st.lastMessageCount ∧
    ∃ new : List Effect, (refreshConversationsFromServer st none).log = st.log ++ new ∧
      ∀ e ∈ new, (∀ data, e ≠ Effect.saveConversations data) ∧
        (∀ data, e ≠ Effect.renderConversations data) ∧
        (∀ t, e ≠ Effect.fetchRead t) ∧ (∀ ms, e ≠ Effect.displayMessages ms) := by
  unfold refreshConversationsFromServer
  cases st.currentIdentity with
  | none => exact ⟨rfl, rfl, rfl, rfl, [], by simp, by simp⟩
  | some me =>
    refine ⟨rfl, rfl, rfl, rfl, [Effect.fetchThreads me.identityHash, Effect.consoleError],
      by simp, ?_⟩
    intro e he
    simp only [List.mem_cons, List.mem_singleton, List.not_mem_nil, or_false] at he
    rcases he with rfl | rfl <;> simp

theorem updatePreview_lastMessageCount (st : State) (messages : List Message) :
    (updatePreview st messages).lastMessageCount = st.lastMessageCount := by
  unfold updatePreview
  split
  · split <;> rfl
  · rfl

theorem loadMessages_then_lastMessageCount (st : State) (silent : Bool)
    (messages : List Message) :
    (loadMessages_then st silent messages).lastMessageCount = messages.length := by
  unfold loadMessages_then
  split
  · have h1 : ∀ shown : State × Bool,
        (if shown.2 then shown.1 else loadMessages_catch shown.1 silent).lastMessageCount
          = shown.1.lastMessageCount := by
      intro shown
      split
      · rfl
      · exact (loadMessages_catch_frame _ _).2
    simp only
    rw [h1, (displayMessages_frame _ _).2, updatePreview_lastMessageCount]
  · rename_i h
    exact (not_not.mp h).symm

theorem loadMessages_then_of_length_eq (st : State) (silent : Bool) (messages : List Message)
    (h : messages.length = st.lastMessageCount) : loadMessages_then st silent messages = st := by
  unfold loadMessages_then
  simp [h]

theorem loadMessages_lastMessageCount (st : State) :
    (loadMessages st).lastMessageCount = st.lastMessageCount := by
  unfold loadMessages
  cases st.currentThreadId with
  | none => rfl
  | some t =>
    simp only
    split <;> rfl

/-- C8. Idempotence of the message sync: after `loadMessages` has processed a response `m`,
processing the same list again, directly or after the synchronous part of a second
`loadMessages` call, leaves the whole state (map, last-known count, persisted data and the
trace of calls) unchanged. -/
theorem syncMessages_idempotent (st : State) (silent1 silent2 : Bool) (m : List Message) :
    loadMessages_then (loadMessages_then st silent1 m) silent2 m
      = loadMessages_then st silent1 m ∧
    loadMessages_then (loadMessages (loadMessages_then st silent1 m)) silent2 m
      = loadMessages (loadMessages_then st silent1 m) := by
  constructor
  · exact loadMessages_then_of_length_eq _ _ _
      (loadMessages_then_lastMessageCount st silent1 m).symm
  · apply loadMessages_then_of_length_eq
    rw [loadMessages_lastMessageCount, loadMessages_then_lastMessageCount]

/-- C9. Count-equal no-op: when the length of the fetched list equals the last-known count,
the response handling of `loadMessages` returns the state unchanged (map, count, persisted
data, trace of calls), whatever the list contains. -/
theorem count_equal_noop (st : State) (silent : Bool) (messages : List Message)
    (h : messages.length = st.lastMessageCount) :
    loadMessages_then st silent messages = st :=
  loadMessages_then_of_length_eq st silent messages h

/-- Witness of C9: last-known count 3 and two different lists of length 3. -/
theorem count_equal_noop_witness :
    loadMessages_then sampleChatState false
        [sampleMessage "a" 1, sampleMessage "b" 2, sampleMessage "c" 3] = sampleChatState ∧
    loadMessages_then sampleChatState false
        [sampleMessage "x" 7, sampleMessage "y" 8, sampleMessage "z" 9] = sampleChatState :=
  ⟨count_equal_noop sampleChatState false
      [sampleMessage "a" 1, sampleMessage "b" 2, sampleMessage "c" 3] rfl,
   count_equal_noop sampleChatState false
      [sampleMessage "x" 7, sampleMessage "y" 8, sampleMessage "z" 9] rfl⟩

theorem sendMessage_conversations (st : State) (text : JSString) :
    (sendMessage st text).1.conversations = st.conversations ∧
    (sendMessage st text).1.storedConversations = st.storedConversations := by
  unfold sendMessage
  simp only
  split
  · exact ⟨rfl, rfl⟩
  · split
    · split <;> exact ⟨rfl, rfl⟩
    · exact ⟨rfl, rfl⟩

theorem sendMessage_plaintext (st : State) (text : JSString) (p : PendingSend)
    (h : (sendMessage st text).2 = some p) : p.plaintext = trim text := by
  unfold sendMessage at h
  simp only at h
  split at h
  · cases h
  · split at h
    · split at h
      · cases h
      · cases h
        rfl
    · cases h

theorem sendMessage_then_entry (st : State) (p : PendingSend) (now : Int) (c : Conversation)
    (hc : mapGet st.conversations p.threadId = some c) :
    mapGet (sendMessage_then st p now).conversations p.threadId
      = some ⟨c.recipientHash, p.plaintext, now⟩ := by
  have hh : mapHas st.conversations p.threadId = true :=
    (mapHas_eq_true_iff _ _).mpr ⟨c, hc⟩
  rw [sendMessage_then_conversations, if_pos hh, mapGet_mapUpdate_self, hc]
  rfl

/-- C10, as amended. Issuing the send and the continuation of a failed send leave the map and
the persisted data unchanged; for a call that issued a request, the continuation of a
successful send sets the entry of the thread, when the map has one, to the trimmed sent text
and the clock value, keeping its `recipientHash`. -/
theorem send_preview_after_success (st : State) (text : JSString) :
    (sendMessage st text).1.conversations = st.conversations ∧
    (sendMessage st text).1.storedConversations = st.storedConversations ∧
    (∀ st1 : State, (sendMessage_catch st1).conversations = st1.conversations ∧
      (sendMessage_catch st1).storedConversations = st1.storedConversations) ∧
    (∀ (p : PendingSend), (sendMessage st text).2 = some p →
      ∀ (st1 : State) (c : Conversation) (now : Int),
        mapGet st1.conversations p.threadId = some c →
        mapGet (sendMessage_then st1 p now).conversations p.threadId
          = some ⟨c.recipientHash, trim text, now⟩) := by
  refine ⟨(sendMessage_conversations st text).1, (sendMessage_conversations st text).2,
    fun st1 => ⟨rfl, rfl⟩, ?_⟩
  intro p hp st1 c now hc
  rw [sendMessage_then_entry st1 p now c hc, sendMessage_plaintext st text p hp]

/-- Witness of C10: the send of ` hi ` on the sample chat, answered at clock value 9000. -/
theorem send_preview_after_success_witness :
    mapGet (sendMessage_then (sendMessage sampleChatState (utf16 " hi ")).1
        ⟨utf16 "aa11:bb22", utf16 "hi"⟩ 9000).conversations (utf16 "aa11:bb22")
      = some ⟨sampleConversation.recipientHash, trim (utf16 " hi "), 9000⟩ :=
  (send_preview_after_success sampleChatState (utf16 " hi ")).2.2.2
    ⟨utf16 "aa11:bb22", utf16 "hi"⟩ (by decide)
    (sendMessage sampleChatState (utf16 " hi ")).1 sampleConversation 9000 (by decide)

/-- Counterexample to C10 as stated: on the sample chat the entry still reads `new` after the
send of `hi` was issued, and after the send failed. -/
theorem no_optimistic_update :
    (sendMessage sampleChatState (utf16 "hi")).2 = some ⟨utf16 "aa11:bb22", utf16 "hi"⟩ ∧
    mapGet (sendMessage sampleChatState (utf16 "hi")).1.conversations (utf16 "aa11:bb22")
      = some ⟨utf16 "bb22", utf16 "new", 5000⟩ ∧
    mapGet (sendMessage_catch (sendMessage sampleChatState (utf16 "hi")).1).conversations
        (utf16 "aa11:bb22")
      = some ⟨utf16 "bb22", utf16 "new", 5000⟩ ∧
    utf16 "new" ≠ utf16 "hi" := by
  decide

/-! ## Manual refresh, connect, canonicalisation -/

/-- C11, evaluated on the sample identity with a failing thread-list request: the manual
refresh makes the request, logs the error and then shows the one toast `Conversations
refreshed!`; the toast `Refresh failed` is not shown. -/
theorem refresh_failure_shows_success :
    (refreshConversations sampleState none).log
      = [Effect.fetchThreads (utf16 "aa11"), Effect.consoleError,
         Effect.showToast Toast.conversationsRefreshed] ∧
    Effect.showToast Toast.refreshFailed ∉ (refreshConversations sampleState none).log := by
  decide

/-- The same trace for every state with an identity. -/
theorem refreshConversations_failure_log (st : State) (me : Identity)
    (hid : st.currentIdentity = some me) :
    (refreshConversations st none).log
      = st.log ++ [Effect.fetchThreads me.identityHash, Effect.consoleError,
          Effect.showToast Toast.conversationsRefreshed] := by
  simp [refreshConversations, refreshConversationsFromServer, hid]

/-- A rejected input only shows a toast. -/
theorem connectToUser_rejected (st : State) (me : Identity) (value : JSString) (now : Int)
    (hid : st.currentIdentity = some me)
    (h : trim value = [] ∨ trim value = me.identityHash) :
    ∃ t, connectToUser st value now = emit st (Effect.showToast t) := by
  unfold connectToUser
  simp only [hid]
  by_cases he : (trim value).isEmpty = true
  · exact ⟨Toast.enterIdentityHash, by simp [he]⟩
  · have hs : trim value = me.identityHash := by
      rcases h with h | h
      · rw [h] at he
        exact absurd rfl he
      · exact h
    refine ⟨Toast.cannotConnectToYourself, ?_⟩
    rw [if_neg he, if_pos hs]

/-- C12. Input rejection before any effect: with an identity, an input that is empty after
trimming or trims to the local identity hash leaves the current thread id, the current
recipient, the map and the persisted data unchanged and adds exactly one call to the trace, a
toast (so no persist and no network request); every other input sets the current thread id to
the thread id of the local hash and the trimmed input. -/
theorem connect_input_rejection (st : State) (me : Identity) (value : JSString) (now : Int)
    (hid : st.currentIdentity = some me) :
    ((trim value = [] ∨ trim value = me.identityHash) →
      (connectToUser st value now).currentThreadId = st.currentThreadId ∧
      (connectToUser st value now).recipientIdentity = st.recipientIdentity ∧
      (connectToUser st value now).conversations = st.conversations ∧
      (connectToUser st value now).storedConversations = st.storedConversations ∧
      ∃ t, (connectToUser st value now).log = st.log ++ [Effect.showToast t]) ∧
    (¬ (trim value = [] ∨ trim value = me.identityHash) →
      (connectToUser st value now).currentThreadId
        = some (threadIdOf me.identityHash (trim value))) := by
  constructor
  · intro h
    obtain ⟨t, ht⟩ := connectToUser_rejected st me value now hid h
    rw [ht]
    exact ⟨rfl, rfl, rfl, rfl, t, rfl⟩
  · intro h
    exact connectToUser_currentThreadId st me value now hid
      (fun e => h (Or.inl e)) (fun e => h (Or.inr e))

/-- Witness of C12 on the sample chat: a blank input, the own hash and the hash `cc33`. -/
theorem connect_input_rejection_witness :
    (connectToUser sampleChatState (utf16 "  ") 7).currentThreadId
        = sampleChatState.currentThreadId ∧
    (connectToUser sampleChatState (utf16 " aa11 ") 7).conversations
        = sampleChatState.conversations ∧
    (connectToUser sampleChatState (utf16 " cc33 ") 7).currentThreadId
        = some (threadIdOf sampleIdentity.identityHash (trim (utf16 " cc33 "))) :=
  ⟨((connect_input_rejection sampleChatState sampleIdentity (utf16 "  ") 7 rfl).1
      (Or.inl (by decide))).1,
   ((connect_input_rejection sampleChatState sampleIdentity (utf16 " aa11 ") 7 rfl).1
      (Or.inr (by decide))).2.2.1,
   (connect_input_rejection sampleChatState sampleIdentity (utf16 " cc33 ") 7 rfl).2
      (by decide)⟩

theorem sortPair_sorted (x y : JSString) :
    isLessThan (sortPair x y).2 (sortPair x y).1 = false := by
  rw [sortPair_eq]
  cases h : isLessThan y x
  · simpa using h
  · simpa using isLessThan_asymm y x h

theorem normalizeThreadId_idem (t : JSString) :
    normalizeThreadId (normalizeThreadId t) = normalizeThreadId t := by
  by_cases h : (split colon t).length = 2
  · match hs : split colon t, h with
    | [x, y], _ =>
      have e : normalizeThreadId t = (sortPair x y).1 ++ colon :: (sortPair x y).2 := by
        simp [normalizeThreadId, hs]
      rw [e]
      exact normalizeThreadId_join _ _ (sortPair_sorted x y)
  · rw [normalizeThreadId_of_length h]
    exact normalizeThreadId_of_length h

theorem normalizeThreadId_isEmpty (t : JSString) (h : t.isEmpty = false) :
    (normalizeThreadId t).isEmpty = false := by
  unfold normalizeThreadId
  split
  · simp
  · exact h

theorem loadMessages_currentThreadId (st : State) :
    (loadMessages st).currentThreadId
      = match st.currentThreadId with
        | none => none
        | some t => if t.isEmpty then some t else some (normalizeThreadId t) := by
  unfold loadMessages
  cases h : st.currentThreadId with
  | none => exact h
  | some t =>
    simp only
    split
    · exact h
    · rfl

/-- C13. Canonicalisation is idempotent: the normalisation step at the start of `loadMessages`
maps the thread id of every pair to itself, applying it twice to any string gives the same as
applying it once, and a second `loadMessages` call leaves the current thread id where the
first one put it. -/
theorem canonicalisation_idempotent (a b t : JSString) (st : State) :
    normalizeThreadId (threadIdOf a b) = threadIdOf a b ∧
    normalizeThreadId (normalizeThreadId t) = normalizeThreadId t ∧
    (loadMessages (loadMessages st)).currentThreadId = (loadMessages st).currentThreadId := by
  refine ⟨normalizeThreadId_threadIdOf a b, normalizeThreadId_idem t, ?_⟩
  rw [loadMessages_currentThreadId (loadMessages st), loadMessages_currentThreadId st]
  cases st.currentThreadId with
  | none => rfl
  | some t1 =>
    simp only
    cases h : t1.isEmpty
    · simp [normalizeThreadId_isEmpty t1 h, normalizeThreadId_idem]
    · simp [h]

/-! ## Change detection across threads and new threads in a sync -/

/-- C14, evaluated on the sample chat: after the thread `aa11:bb22` was synced with three
messages the count is 3; the user opens `aa11:cc33`, which gets an empty preview; the first
response for it, with three messages, leaves the state unchanged: the messages are not handed
to `displayMessages` and the preview stays empty. -/
theorem count_shared_between_threads :
    sampleSyncedA.lastMessageCount = 3 ∧
    Effect.displayMessages sampleHistoryA ∈ sampleSyncedA.log ∧
    sampleOpenedB.currentThreadId = some (utf16 "aa11:cc33") ∧
    mapGet sampleOpenedB.conversations (utf16 "aa11:cc33") = some ⟨utf16 "cc33", [], 9000⟩ ∧
    sampleHistoryB.length = 3 ∧
    loadMessages_then sampleOpenedB false sampleHistoryB = sampleOpenedB ∧
    Effect.displayMessages sampleHistoryB
      ∉ (loadMessages_then sampleOpenedB false sampleHistoryB).log ∧
    mapGet (loadMessages_then sampleOpenedB false sampleHistoryB).conversations
      (utf16 "aa11:cc33") = some ⟨utf16 "cc33", [], 9000⟩ := by
  decide

/-- The entry inserted by a sync for a thread id that was absent. -/
theorem refresh_inserts_entry (st : State) (me : Identity)
    (pre post : List (Thread × Option (List Message))) (d : Thread) (msgs : List Message)
    (lastMsg : Message)
    (hid : st.currentIdentity = some me)
    (habs : mapGet st.conversations d.thread_id = none)
    (hl : msgs.getLast? = some lastMsg)
    (hpre : ∀ it ∈ pre, it.1.thread_id ≠ d.thread_id)
    (hpost : ∀ it ∈ post, it.1.thread_id ≠ d.thread_id) :
    mapGet (refreshConversationsFromServer st
        (some (pre ++ (d, some msgs) :: post))).conversations d.thread_id
      = some ⟨d.other_identity_hash, lastMsg.text, d.last_message_time * 1000⟩ := by
  rw [refresh_conversations st me _ hid, List.foldl_append, List.foldl_cons,
    foldl_mergeItem_other _ post _ hpost]
  have h1 : mapGet (pre.foldl mergeItem st.conversations) d.thread_id = none := by
    rw [foldl_mergeItem_other _ pre _ hpre, habs]
  show mapGet (mergeThread _ d msgs) d.thread_id = _
  rw [mergeThread_absent _ d msgs lastMsg hl h1, mapGet_mapSet_self]

/-- C15, as amended. For a descriptor `d` whose thread id is absent from the map, whose fetched
history is non-empty and which is the only descriptor of the list for that thread id, after
`refreshConversationsFromServer` the map has an entry for it with the descriptor's other hash,
the text of the last message and the timestamp `d.last_message_time * 1000`; that is the last
message's `timestamp * 1000` when the descriptor's time equals the last message's
timestamp. -/
theorem sync_preview_of_new_thread (st : State) (me : Identity)
    (pre post : List (Thread × Option (List Message))) (d : Thread) (msgs : List Message)
    (lastMsg : Message)
    (hid : st.currentIdentity = some me)
    (habs : mapGet st.conversations d.thread_id = none)
    (hl : msgs.getLast? = some lastMsg)
    (hpre : ∀ it ∈ pre, it.1.thread_id ≠ d.thread_id)
    (hpost : ∀ it ∈ post, it.1.thread_id ≠ d.thread_id) :
    mapGet (refreshConversationsFromServer st
        (some (pre ++ (d, some msgs) :: post))).conversations d.thread_id
      = some ⟨d.other_identity_hash, lastMsg.text, d.last_message_time * 1000⟩ ∧
    (d.last_message_time = lastMsg.timestamp →
      mapGet (refreshConversationsFromServer st
          (some (pre ++ (d, some msgs) :: post))).conversations d.thread_id
        = some ⟨d.other_identity_hash, lastMsg.text, lastMsg.timestamp * 1000⟩) := by
  have h := refresh_inserts_entry st me pre post d msgs lastMsg hid habs hl hpre hpost
  refine ⟨h, fun e => ?_⟩
  rw [h, e]

/-- Witness of C15: the thread `aa11:bb22` with descriptor time 3 and last message at 3 s. -/
theorem sync_preview_of_new_thread_witness :
    mapGet (refreshConversationsFromServer sampleState
        (some ([] ++ (sampleThread "aa11:bb22" "bb22" 3, some sampleHistoryA) :: []))).conversations
        (sampleThread "aa11:bb22" "bb22" 3).thread_id
      = some ⟨(sampleThread "aa11:bb22" "bb22" 3).other_identity_hash,
          (sampleMessage "a3" 3).text, (sampleMessage "a3" 3).timestamp * 1000⟩ :=
  (sync_preview_of_new_thread sampleState sampleIdentity [] []
    (sampleThread "aa11:bb22" "bb22" 3) sampleHistoryA (sampleMessage "a3" 3) rfl rfl rfl
    (fun _ h => absurd h (List.not_mem_nil _)) (fun _ h => absurd h (List.not_mem_nil _))).2 rfl

/-- Counterexample to C15 as stated: descriptor time 5 and a last message at 3 s give the
timestamp 5000, not 3000. -/
theorem sync_timestamp_from_descriptor :
    mapGet sampleState.conversations (utf16 "aa11:bb22") = none ∧
    [sampleMessage "x" 3].getLast? = some (sampleMessage "x" 3) ∧
    mapGet (refreshConversationsFromServer sampleState
        (some [(sampleThread "aa11:bb22" "bb22" 5, some [sampleMessage "x" 3])])).conversations
        (utf16 "aa11:bb22")
      = some ⟨utf16 "bb22", utf16 "x", 5000⟩ ∧
    (5000 : Int) ≠ (sampleMessage "x" 3).timestamp * 1000 := by
  decide

end Psy
